import Mathlib

/-!
Verification development for the gefyra bridge orchestration core
(`src/client/gefyra/api/bridge.py`).

The Python functions `check_workloads`, `bridge`, `unbridge` and
`unbridge_all` are shallowly embedded below.  External collaborators
(the Docker runtime, the Kubernetes resolver, the intercept-request
store) are modelled as data supplied in a `World` record: the resolver's
answer is a pod/container mapping, intent creation assigns uids through
an oracle, and each poll tick's `get_all_interceptrequests` answer is a
function of the tick index.  Side effects that the claims talk about
(resolving pods, creating intents, registering syncdown jobs, deleting
intents) are collected in an explicit effect trace.  The unbounded
`while True` convergence loop is embedded with an explicit fuel
parameter; running out of fuel is a distinct outcome, so termination
behaviour (convergence, timeout) is faithfully observable.
-/

namespace Gefyra

/-! ### Python string splitting, character level

`String.splitOn` does not reduce in the kernel, and Python's
`str.split(sep, maxsplit)` has no Lean counterpart, so splitting is
embedded directly on character lists. -/

/-- Split off the part of `s` before the first occurrence of `c`;
`none` when `c` does not occur. -/
def splitFirst (c : Char) : List Char → Option (List Char × List Char)
  | [] => none
  | x :: xs =>
    if x = c then some ([], xs)
    else
      match splitFirst c xs with
      | none => none
      | some (a, b) => some (x :: a, b)

/-- Python `s.split(c, n)`: split on `c` at most `n` times. -/
def pySplitMax (c : Char) : Nat → List Char → List (List Char)
  | 0, s => [s]
  | n + 1, s =>
    match splitFirst c s with
    | none => [s]
    | some (a, b) => a :: pySplitMax c n b

/-- Python `target.split("/", 2)` from `bridge`. -/
def pySplit2 (s : String) : List String :=
  (pySplitMax '/' 2 s.data).map String.mk

/-- Python `s.split(c)` (no maxsplit): split on every occurrence. -/
def splitAllChars (c : Char) : List Char → List (List Char)
  | [] => [[]]
  | x :: xs =>
    if x = c then [] :: splitAllChars c xs
    else
      match splitAllChars c xs with
      | [] => [[x]]
      | a :: rest => (x :: a) :: rest

/-- Python `port.split(":")` from the summary report in `bridge`. -/
def pySplitAll (c : Char) (s : String) : List String :=
  (splitAllChars c s.data).map String.mk

/-! ### check_workloads -/

/-- Python `"-".join(key.split("-")[:-2])`: drop the two trailing
dash-delimited segments of a pod name. -/
def cleanedName (podName : String) : String :=
  String.mk (List.intercalate ['-'] ((splitAllChars '-' podName.data).dropLast.dropLast))

/-- The exceptions raised by `check_workloads`.  `workloadNotFound`
carries the data interpolated into its message, in particular the list
of cleaned pod names the message enumerates. -/
inductive CheckError where
  | noPods : CheckError
  | workloadNotFound (workloadType workloadName : String) (cleanedNames : List String) : CheckError
  | containerNotFound (containerName : String) : CheckError
deriving DecidableEq, Repr

/-- `check_workloads(pods_to_intercept, workload_type, workload_name,
container_name)`: validation of the resolved pod set.  The pod mapping
is embedded as an association list (Python dict, insertion ordered);
raising is embedded as `Except.error`. -/
def check_workloads (pods_to_intercept : List (String × List String))
    (workload_type workload_name container_name : String) : Except CheckError Bool :=
  if pods_to_intercept.length = 0 then .error .noPods
  else
    let use_index := decide (1 < pods_to_intercept.length)
    let cleaned_names := pods_to_intercept.map (fun p => cleanedName p.1)
    if workload_type ≠ "pod" ∧ workload_name ∉ cleaned_names then
      .error (.workloadNotFound workload_type workload_name cleaned_names)
    else if container_name ∉ pods_to_intercept.flatMap (fun p => p.2) then
      .error (.containerNotFound container_name)
    else .ok use_index

/-! ### Intent building -/

/-- The sync-down directory always copied first (`bridge.py` line 121). -/
def serviceAccountSecretPath : String :=
  "/var/run/secrets/kubernetes.io/serviceaccount"

/-- Lines 119-124 of `bridge.py`: prepend the service-account secret
path to the requested directories.  Python's `if sync_down_dirs:` is
falsy both for `None` and for an empty list. -/
def effectiveSyncDownDirs (sync_down_dirs : Option (List String)) : List String :=
  match sync_down_dirs with
  | some dirs =>
      if dirs.isEmpty then [serviceAccountSecretPath]
      else serviceAccountSecretPath :: dirs
  | none => [serviceAccountSecretPath]

/-- The body handed to `get_ireq_body`, one per target pod. -/
structure IReqBody where
  name : String
  destination_ip : String
  target_pod : String
  target_namespace : String
  target_container : String
  port_mappings : List String
  sync_down_directories : List String
  handle_probes : Bool
deriving DecidableEq, Repr

/-- Lines 133-146 of `bridge.py`: `for idx, pod in
enumerate(pods_to_intercept)` builds one intercept-request body per
resolved pod, appending `-idx` to the base name exactly when
`use_index`. -/
def buildIReqs (ireq_base_name destination_ip target_namespace target_container : String)
    (port_mappings sync_down_directories : List String) (handle_probes : Bool)
    (pods_to_intercept : List (String × List String)) (use_index : Bool) : List IReqBody :=
  pods_to_intercept.enum.map (fun ip =>
    { name := if use_index then ireq_base_name ++ "-" ++ toString ip.1 else ireq_base_name
      destination_ip := destination_ip
      target_pod := ip.2.1
      target_namespace := target_namespace
      target_container := target_container
      port_mappings := port_mappings
      sync_down_directories := sync_down_directories
      handle_probes := handle_probes })

/-! ### The convergence loop -/

/-- One entry of the list returned by `get_all_interceptrequests`: the
fields of a cluster-observed intercept request that `bridge` reads. -/
structure Fetched where
  uid : String
  name : String
  established : Bool
  targetPod : String
  targetNamespace : String
deriving DecidableEq, Repr

/-- One progress log line (`bridge.py` line 177-179): the intent name
and the `sum(bridges.values())/len(ireqs)` counter at emission time. -/
structure Emission where
  name : String
  converged : Nat
  total : Nat
deriving DecidableEq, Repr

/-- Python `bridges[uid] = True` on the `bridges` dict, embedded on the
association list: every entry keyed `uid` is set to `true`. -/
def setTrue (bridges : List (String × Bool)) (uid : String) : List (String × Bool) :=
  bridges.map (fun p => if p.1 = uid then (p.1, true) else p)

/-- Python `sum(bridges.values())`. -/
def countTrue (bridges : List (String × Bool)) : Nat :=
  (bridges.filter (fun p => p.2)).length

/-- The guard of line 173-175: the fetched entry's uid is tracked and
its observed `established` flag is true. -/
def trackedEstablished (bridges : List (String × Bool)) (f : Fetched) : Bool :=
  bridges.any (fun p => p.1 == f.uid) && f.established

/-- Python `bridges.get(uid)`: last-observed converged flag of a
tracked intent. -/
def lookupBridge (bridges : List (String × Bool)) (uid : String) : Option Bool :=
  (bridges.find? (fun p => p.1 == uid)).map (fun p => p.2)

/-- One iteration of the `for kube_ireq in kube_ireqs` body (lines
172-179): mark the entry converged and emit a progress line when the
guard holds, otherwise leave the state unchanged. -/
def fetchStep (total : Nat) (acc : List (String × Bool) × List Emission) (f : Fetched) :
    List (String × Bool) × List Emission :=
  if trackedEstablished acc.1 f then
    let bs := setTrue acc.1 f.uid
    (bs, acc.2 ++ [⟨f.name, countTrue bs, total⟩])
  else acc

/-- Lines 172-179 of `bridge.py`: process one fetched list in order,
marking tracked established intents converged and emitting one progress
line per processed entry. -/
def applyFetch (bridges : List (String × Bool)) (fetched : List Fetched) (total : Nat) :
    List (String × Bool) × List Emission :=
  fetched.foldl (fetchStep total) (bridges, [])

/-- Outcome of the `while True` loop of lines 169-186, with the number
of completed poll ticks, the progress emissions, and (on convergence)
the last fetched list — the `kube_ireqs` in scope after `break` — and
the final `bridges` dict.  `running` is fuel exhaustion of the
embedding, not a behaviour of the code. -/
inductive LoopResult where
  | converged (ticks : Nat) (emissions : List Emission)
      (lastFetch : List Fetched) (finalBridges : List (String × Bool)) : LoopResult
  | timedOut (ticks : Nat) (emissions : List Emission) : LoopResult
  | running (bridges : List (String × Bool)) (waiting : Int) (emissions : List Emission) : LoopResult
deriving DecidableEq, Repr

def LoopResult.isTimedOut : LoopResult → Bool
  | .timedOut _ _ => true
  | _ => false

def LoopResult.isConverged : LoopResult → Bool
  | .converged _ _ _ _ => true
  | _ => false

def LoopResult.ticks : LoopResult → Nat
  | .converged t _ _ _ => t
  | .timedOut t _ => t
  | .running _ _ _ => 0

/-- Lines 169-186 of `bridge.py`: fetch, mark established intents, exit
on full convergence, otherwise sleep one tick, decrement the waiting
budget and raise once it is exhausted while `timeout` is nonzero. -/
def runLoop (fetches : Nat → List Fetched) (timeout : Nat) (total : Nat) :
    Nat → Nat → List (String × Bool) → Int → List Emission → LoopResult
  | 0, _, bridges, waiting, emissions => .running bridges waiting emissions
  | fuel + 1, tick, bridges, waiting, emissions =>
    let fetched := fetches tick
    let r := applyFetch bridges fetched total
    let emissions' := emissions ++ r.2
    if r.1.all (fun p => p.2) then .converged (tick + 1) emissions' fetched r.1
    else
      let waiting' := waiting - 1
      if timeout ≠ 0 ∧ waiting' ≤ 0 then .timedOut (tick + 1) emissions'
      else runLoop fetches timeout total fuel (tick + 1) r.1 waiting' emissions'

/-- The `bridges` dict after the updates of ticks `tick, tick+1, ...,
tick+j-1`, starting from `bridges`. -/
def bridgesAfterFrom (fetches : Nat → List Fetched) (total : Nat)
    (bridges : List (String × Bool)) (tick : Nat) : Nat → List (String × Bool)
  | 0 => bridges
  | j + 1 => (applyFetch (bridgesAfterFrom fetches total bridges tick j) (fetches (tick + j)) total).1

/-- The `bridges` dict after the first `j` poll ticks. -/
def bridgesAfter (fetches : Nat → List Fetched) (total : Nat)
    (bridges : List (String × Bool)) (j : Nat) : List (String × Bool) :=
  bridgesAfterFrom fetches total bridges 0 j

/-! ### Summary report -/

/-- The values interpolated into one summary log line of lines 188-199:
pod, namespace, pod-side port, the value printed as "local container"
(which is `container_name`, the target container parsed from the target
path), container-side port. -/
structure SummaryLine where
  pod : String
  ns : String
  podPort : String
  container : String
  containerPort : String
deriving DecidableEq, Repr

/-- Line 85 of `bridge.py`: `[f"{key}:{value}" for key, value in
ports.items()]`, the port dict embedded as an insertion-ordered
association list. -/
def serializePorts (ports : List (String × String)) : List String :=
  ports.map (fun kv => kv.1 ++ ":" ++ kv.2)

/-- Lines 188-199 of `bridge.py`: one line per fetched intercept request
`ki` in `kube_ireqs` and per serialized port string, splitting the port
string back on `:`. -/
def summaryLines (container_name : String) (ports : List String)
    (kube_ireqs : List Fetched) : List SummaryLine :=
  kube_ireqs.flatMap (fun ki =>
    ports.map (fun port =>
      let bridge_ports := pySplitAll ':' port
      { pod := ki.targetPod
        ns := ki.targetNamespace
        podPort := bridge_ports.getD 1 ""
        container := container_name
        containerPort := bridge_ports.getD 0 "" }))

/-! ### The bridge pipeline -/

/-- The observable calls `bridge`, `unbridge` and `unbridge_all` make on
their collaborators, in order. -/
inductive Effect where
  | resolvePods : Effect
  | createIntent (body : IReqBody) : Effect
  | addSyncdownJob (ireqName localContainer pod container dir : String) : Effect
  | deleteIntent (name : String) : Effect
deriving DecidableEq, Repr

/-- The result of a `bridge` call: the two `return False` paths, the
uncaught `ValueError` of the target unpacking, a `check_workloads`
exception, the timeout `RuntimeError`, or `return True` carrying the
summary lines.  `fuelExhausted` marks an embedding run that ran out of
fuel inside the convergence loop. -/
inductive BridgeOutcome where
  | returnedFalse : BridgeOutcome
  | raisedUnpack : BridgeOutcome
  | raisedCheck (e : CheckError) : BridgeOutcome
  | raisedTimeout : BridgeOutcome
  | returnedTrue (summary : List SummaryLine) : BridgeOutcome
  | fuelExhausted : BridgeOutcome
deriving DecidableEq, Repr

/-- The arguments of a `bridge` call (`ns` is the `namespace`
parameter; the port dict is an insertion-ordered association list of
strings as interpolated by the f-string). -/
structure BridgeRequest where
  name : String
  ports : List (String × String)
  target : String
  ns : String
  sync_down_dirs : Option (List String)
  handle_probes : Bool
  timeout : Nat

/-- The collaborators of one `bridge` run: the Docker container's
network dict (`none` models the `NotFound` of `containers.get`), the
configured network name, the resolver's pod/container answer, the uid
the store assigns to the `idx`-th created intent, and the list
`get_all_interceptrequests` returns at each tick. -/
structure World where
  containerNetworks : Option (List (String × String))
  networkName : String
  pods : List (String × List String)
  uids : Nat → String
  fetches : Nat → List Fetched

/-- The `bridge` function (lines 57-200), with an explicit fuel bound on
the polling loop and an effect trace of collaborator calls. -/
def bridge (w : World) (req : BridgeRequest) (fuel : Nat) : BridgeOutcome × List Effect :=
  match w.containerNetworks with
  | none => (.returnedFalse, [])
  | some networks =>
    let ports := serializePorts req.ports
    match networks.find? (fun p => p.1 == w.networkName) with
    | none => (.returnedFalse, [])
    | some netEntry =>
      let local_container_ip := netEntry.2
      match pySplit2 req.target with
      | [workload_type, workload_name, container_name] =>
        let pods_to_intercept := w.pods
        let ireq_base_name :=
          req.name ++ "-to-" ++ req.ns ++ "." ++ workload_type ++ "." ++ workload_name
        match check_workloads pods_to_intercept workload_type workload_name container_name with
        | .error e => (.raisedCheck e, [.resolvePods])
        | .ok use_index =>
          let sync_down_dirs := effectiveSyncDownDirs req.sync_down_dirs
          let ireqs := buildIReqs ireq_base_name local_container_ip req.ns container_name
            ports sync_down_dirs req.handle_probes pods_to_intercept use_index
          let effects := Effect.resolvePods :: ireqs.flatMap (fun b =>
            Effect.createIntent b :: sync_down_dirs.map (fun dir =>
              Effect.addSyncdownJob b.name req.name b.target_pod container_name dir))
          let bridges := (List.range ireqs.length).map (fun i => (w.uids i, false))
          let outcome :=
            match runLoop w.fetches req.timeout ireqs.length fuel 0 bridges (Int.ofNat req.timeout) [] with
            | .converged _ _ lastFetch _ =>
                BridgeOutcome.returnedTrue (summaryLines container_name ports lastFetch)
            | .timedOut _ _ => BridgeOutcome.raisedTimeout
            | .running _ _ _ => BridgeOutcome.fuelExhausted
          (outcome, effects)
      | _ => (.raisedUnpack, [])

/-! ### Teardown -/

/-- `unbridge` (lines 203-218): one delete call whose acknowledgment
only selects a log line; the function returns `True` unconditionally. -/
def unbridge (name : String) (deleteAck : String → Bool) : Bool × List Effect :=
  let success := deleteAck name
  let _logged := success
  (true, [.deleteIntent name])

/-- `unbridge_all` (lines 221-240): enumerate the current intercept
requests and delete each by its metadata name, returning `True`. -/
def unbridge_all (ireqs : List Fetched) (deleteAck : String → Bool) : Bool × List Effect :=
  let _acks := ireqs.map (fun i => deleteAck i.name)
  (true, ireqs.map (fun i => Effect.deleteIntent i.name))

/-! ### Concrete scenario data used by witnesses and counterexamples -/

/-- A tick schedule that reports intent `u1` established from the first
tick on and `u2` established from the second tick on. -/
def fetchesC5 : Nat → List Fetched := fun t =>
  if t = 0 then [⟨"u1", "b1", true, "p1", "nsa"⟩]
  else [⟨"u1", "b1", true, "p1", "nsa"⟩, ⟨"u2", "b2", true, "p2", "nsa"⟩]

/-- A healthy single-pod world. -/
def wC1 : World :=
  { containerNetworks := some [("gefyra", "10.0.0.5")]
    networkName := "gefyra"
    pods := [("api-abc-def", ["app"])]
    uids := fun i => "uid" ++ toString i
    fetches := fun _ => [] }

/-- A request against `wC1` carrying one extra sync-down directory. -/
def reqC1 : BridgeRequest :=
  { name := "web", ports := [("8080", "80")], target := "deployment/api/app"
    ns := "default", sync_down_dirs := some ["/data"], handle_probes := true, timeout := 0 }

/-- The single intent body `bridge wC1 reqC1` creates. -/
def bodyC1 : IReqBody :=
  { name := "web-to-default.deployment.api"
    destination_ip := "10.0.0.5"
    target_pod := "api-abc-def"
    target_namespace := "default"
    target_container := "app"
    port_mappings := ["8080:80"]
    sync_down_directories := [serviceAccountSecretPath, "/data"]
    handle_probes := true }

/-- A single-pod world whose fetch answer also contains an intercept
request that this bridge run did not create (uid `foreign`, not even
established). -/
def wC9 : World :=
  { containerNetworks := some [("gefyra", "10.0.0.5")]
    networkName := "gefyra"
    pods := [("api-abc-def", ["app"])]
    uids := fun i => "uid" ++ toString i
    fetches := fun _ =>
      [⟨"uid0", "web-to-default.deployment.api", true, "api-abc-def", "default"⟩,
       ⟨"foreign", "other-bridge", false, "otherpod", "otherns"⟩] }

/-- A plain one-port request against `wC9`. -/
def reqC9 : BridgeRequest :=
  { name := "web", ports := [("8080", "80")], target := "deployment/api/app"
    ns := "default", sync_down_dirs := none, handle_probes := true, timeout := 0 }

/-- A world whose local container checks pass. -/
def wC10 : World :=
  { containerNetworks := some [("gefyra", "10.0.0.5")]
    networkName := "gefyra"
    pods := []
    uids := fun _ => ""
    fetches := fun _ => [] }

/-- A request whose target path holds a single slash. -/
def reqC10 : BridgeRequest :=
  { name := "web", ports := [], target := "deployment/api"
    ns := "default", sync_down_dirs := none, handle_probes := true, timeout := 0 }

/-- A world with no local container of the requested name. -/
def wC7 : World :=
  { containerNetworks := none
    networkName := "gefyra"
    pods := []
    uids := fun _ => ""
    fetches := fun _ => [] }

/-! ## Helper lemmas: character splitting -/

theorem splitFirst_eq_none {c : Char} {s : List Char} (h : c ∉ s) : splitFirst c s = none := by
  induction s with
  | nil => rfl
  | cons x xs ih =>
    simp only [List.mem_cons, not_or] at h
    simp only [splitFirst, if_neg (fun hx : x = c => h.1 hx.symm), ih h.2]

theorem splitFirst_eq_some {c : Char} :
    ∀ {s a b : List Char}, splitFirst c s = some (a, b) → s = a ++ c :: b ∧ c ∉ a := by
  intro s
  induction s with
  | nil => intro a b h; simp [splitFirst] at h
  | cons x xs ih =>
    intro a b h
    by_cases hx : x = c
    · simp only [splitFirst, if_pos hx, Option.some.injEq, Prod.mk.injEq] at h
      obtain ⟨rfl, rfl⟩ := h
      simp [hx]
    · simp only [splitFirst, if_neg hx] at h
      cases hsf : splitFirst c xs with
      | none => rw [hsf] at h; simp at h
      | some ab =>
        obtain ⟨a', b'⟩ := ab
        rw [hsf] at h
        simp only [Option.some.injEq, Prod.mk.injEq] at h
        obtain ⟨rfl, rfl⟩ := h
        obtain ⟨hs, hna⟩ := ih hsf
        refine ⟨by rw [hs]; rfl, ?_⟩
        simp only [List.mem_cons, not_or]
        exact ⟨fun hcx => hx hcx.symm, hna⟩

theorem not_mem_of_splitFirst_eq_none {c : Char} :
    ∀ {s : List Char}, splitFirst c s = none → c ∉ s := by
  intro s
  induction s with
  | nil => intro _; simp
  | cons x xs ih =>
    intro h
    by_cases hx : x = c
    · simp [splitFirst, if_pos hx] at h
    · simp only [splitFirst, if_neg hx] at h
      cases hsf : splitFirst c xs with
      | none =>
        simp only [List.mem_cons, not_or]
        exact ⟨fun hcx => hx hcx.symm, ih hsf⟩
      | some ab => rw [hsf] at h; simp at h

theorem splitFirst_append {c : Char} {a : List Char} (h : c ∉ a) (b : List Char) :
    splitFirst c (a ++ c :: b) = some (a, b) := by
  induction a with
  | nil => simp [splitFirst]
  | cons x xs ih =>
    simp only [List.mem_cons, not_or] at h
    simp only [List.cons_append, splitFirst, List.append_eq,
      if_neg (fun hx : x = c => h.1 hx.symm), ih h.2]

theorem length_pySplitMax (c : Char) : ∀ (n : Nat) (s : List Char),
    (pySplitMax c n s).length = min (s.count c) n + 1 := by
  intro n
  induction n with
  | zero => intro s; simp [pySplitMax]
  | succ n ih =>
    intro s
    cases hsf : splitFirst c s with
    | none =>
      rw [List.count_eq_zero.mpr (not_mem_of_splitFirst_eq_none hsf)]
      simp [pySplitMax, hsf]
    | some ab =>
      obtain ⟨a, b⟩ := ab
      obtain ⟨rfl, hna⟩ := splitFirst_eq_some hsf
      have hcount : (a ++ c :: b).count c = b.count c + 1 := by
        rw [List.count_append, List.count_cons_self,
          List.count_eq_zero.mpr hna, Nat.zero_add]
      simp only [pySplitMax, hsf, List.length_cons, ih b, hcount, Nat.succ_min_succ]

theorem string_mk_data (s : String) : String.mk s.data = s := rfl

theorem splitAllChars_of_not_mem {c : Char} {s : List Char} (h : c ∉ s) :
    splitAllChars c s = [s] := by
  induction s with
  | nil => rfl
  | cons x xs ih =>
    simp only [List.mem_cons, not_or] at h
    simp only [splitAllChars, if_neg (fun hx : x = c => h.1 hx.symm), ih h.2]

theorem splitAllChars_append {c : Char} {a : List Char} (h : c ∉ a) (b : List Char) :
    splitAllChars c (a ++ c :: b) = a :: splitAllChars c b := by
  induction a with
  | nil => simp [splitAllChars]
  | cons x xs ih =>
    simp only [List.mem_cons, not_or] at h
    simp only [List.cons_append, splitAllChars, List.append_eq,
      if_neg (fun hx : x = c => h.1 hx.symm), ih h.2]

/-- Splitting `k:v` back apart recovers `k` and `v` when neither
contains a colon. -/
theorem pySplitAll_colon (k v : String) (hk : ':' ∉ k.data) (hv : ':' ∉ v.data) :
    pySplitAll ':' (k ++ ":" ++ v) = [k, v] := by
  have hdata : (k ++ ":" ++ v).data = k.data ++ ':' :: v.data := by
    rw [String.data_append, String.data_append]
    simp [List.append_assoc]
  rw [pySplitAll, hdata, splitAllChars_append hk, splitAllChars_of_not_mem hv]
  simp [string_mk_data]

theorem pySplitMax_succ (c : Char) (n : Nat) (s : List Char) :
    pySplitMax c (n + 1) s =
      match splitFirst c s with
      | none => [s]
      | some ab => ab.1 :: pySplitMax c n ab.2 := by
  cases hsf : splitFirst c s with
  | none => simp [pySplitMax, hsf]
  | some ab => simp [pySplitMax, hsf]

/-- `target.split("/", 2)` on a string with two or more slashes yields
the text before the first slash, the text between the first two
slashes, and the whole rest. -/
theorem pySplit2_three (a b c : String) (ha : '/' ∉ a.data) (hb : '/' ∉ b.data) :
    pySplit2 (a ++ "/" ++ b ++ "/" ++ c) = [a, b, c] := by
  have hdata : (a ++ "/" ++ b ++ "/" ++ c).data = a.data ++ '/' :: (b.data ++ '/' :: c.data) := by
    simp only [String.data_append]
    simp [List.append_assoc]
  have h1 := splitFirst_append ha (b.data ++ '/' :: c.data)
  have h2 := splitFirst_append hb c.data
  have hone : ∀ s : List Char, pySplitMax '/' 1 s =
      match splitFirst '/' s with
      | none => [s]
      | some ab => [ab.1, ab.2] := by
    intro s
    cases hsf : splitFirst '/' s with
    | none => simp [pySplitMax, hsf]
    | some ab => simp [pySplitMax, hsf]
  rw [pySplit2, hdata, show (2 : Nat) = 1 + 1 from rfl, pySplitMax_succ, h1]
  simp only [hone, h2]
  simp [string_mk_data]

/-! ## C10: target path parsing -/

/-- C10: `bridge` splits the target path on at most the first two `/`
separators, so the container segment may itself contain slashes; and
whenever the target holds fewer than two slashes, a `bridge` call that
has passed both local-container checks terminates with the unhandled
unpacking error, with an empty effect trace — before any pod
resolution, validation or intent creation. -/
theorem c10_target_split (w : World) (req : BridgeRequest) (fuel : Nat) :
    (∀ a b c : String, '/' ∉ a.data → '/' ∉ b.data →
      pySplit2 (a ++ "/" ++ b ++ "/" ++ c) = [a, b, c]) ∧
    (∀ networks netEntry, w.containerNetworks = some networks →
      networks.find? (fun p => p.1 == w.networkName) = some netEntry →
      req.target.data.count '/' < 2 →
      bridge w req fuel = (.raisedUnpack, [])) := by
  constructor
  · exact fun a b c ha hb => pySplit2_three a b c ha hb
  · intro networks netEntry hn hfind hcount
    have hlen : (pySplit2 req.target).length ≤ 2 := by
      rw [pySplit2, List.length_map, length_pySplitMax]
      omega
    simp only [bridge, hn, hfind]
    rcases hsplit : pySplit2 req.target with _ | ⟨x, _ | ⟨y, _ | ⟨z, rest⟩⟩⟩
    · rfl
    · rfl
    · rfl
    · rw [hsplit] at hlen
      simp at hlen

/-! ## C7: local container guards -/

/-- C7: when the local container is absent from the runtime, or present
but not attached to the configured network, `bridge` returns the
failure result with an empty effect trace: no pod resolution and no
intent creation happens. -/
theorem c7_local_container_guard (w : World) (req : BridgeRequest) (fuel : Nat) :
    (w.containerNetworks = none → bridge w req fuel = (.returnedFalse, [])) ∧
    (∀ networks, w.containerNetworks = some networks →
      networks.find? (fun p => p.1 == w.networkName) = none →
      bridge w req fuel = (.returnedFalse, [])) := by
  constructor
  · intro h
    simp only [bridge, h]
  · intro networks hn hfind
    simp only [bridge, hn, hfind]

/-! ## C8: teardown -/

/-- C8: `unbridge` issues exactly one delete call and returns `True`
whatever the collaborator's acknowledgment value is; `unbridge_all`
issues exactly one delete per enumerated intent, in order, and returns
`True`, with zero deletions for zero intents. -/
theorem c8_unbridge_spec (name : String) (deleteAck : String → Bool) (ireqs : List Fetched) :
    unbridge name deleteAck = (true, [.deleteIntent name]) ∧
    unbridge_all ireqs deleteAck = (true, ireqs.map (fun i => .deleteIntent i.name)) ∧
    unbridge_all [] deleteAck = (true, []) :=
  ⟨rfl, rfl, rfl⟩

/-! ## C6: validation of the resolved pod set -/

/-- C6: `check_workloads` fails with the no-pods error exactly on the
empty pod set; past that, for non-pod workload types it fails with the
workload-not-found error — carrying exactly the cleaned names obtained
by stripping the two trailing dash-delimited segments of each pod
name — precisely when the requested workload name is absent from those
cleaned names; past that check it fails with the container-not-found
error precisely when the container is absent from the union of all
resolved pods' containers; and otherwise it succeeds, returning
use-index true iff more than one pod was resolved. -/
theorem c6_check_workloads_spec (pods : List (String × List String)) (wt wn cn : String) :
    (pods = [] → check_workloads pods wt wn cn = .error .noPods) ∧
    (check_workloads pods wt wn cn
        = .error (.workloadNotFound wt wn (pods.map (fun p => cleanedName p.1)))
      ↔ pods ≠ [] ∧ wt ≠ "pod" ∧ wn ∉ pods.map (fun p => cleanedName p.1)) ∧
    (pods ≠ [] → (wt = "pod" ∨ wn ∈ pods.map (fun p => cleanedName p.1)) →
      (check_workloads pods wt wn cn = .error (.containerNotFound cn)
        ↔ cn ∉ pods.flatMap (fun p => p.2))) ∧
    (pods ≠ [] → (wt = "pod" ∨ wn ∈ pods.map (fun p => cleanedName p.1)) →
      cn ∈ pods.flatMap (fun p => p.2) →
      check_workloads pods wt wn cn = .ok (decide (1 < pods.length))) := by
  have hlen0 : pods.length = 0 ↔ pods = [] := List.length_eq_zero
  refine ⟨?_, ?_, ?_, ?_⟩
  · intro h
    subst h
    rfl
  · simp only [check_workloads]
    by_cases h0 : pods.length = 0
    · rw [if_pos h0]
      simp [hlen0.mp h0]
    · rw [if_neg h0]
      by_cases hw : wt ≠ "pod" ∧ wn ∉ pods.map (fun p => cleanedName p.1)
      · rw [if_pos hw]
        have hne : pods ≠ [] := fun h => h0 (hlen0.mpr h)
        simp [hne, hw.1, hw.2]
      · rw [if_neg hw]
        have hrhs : ¬(pods ≠ [] ∧ wt ≠ "pod" ∧ wn ∉ pods.map (fun p => cleanedName p.1)) :=
          fun hx => hw ⟨hx.2.1, hx.2.2⟩
        by_cases hc : cn ∉ pods.flatMap (fun p => p.2)
        · rw [if_pos hc]
          exact iff_of_false (by simp) hrhs
        · rw [if_neg hc]
          exact iff_of_false (by simp) hrhs
  · intro hne hwl
    have h0 : ¬pods.length = 0 := fun h => hne (hlen0.mp h)
    have hw : ¬(wt ≠ "pod" ∧ wn ∉ pods.map (fun p => cleanedName p.1)) := by
      intro hx
      rcases hwl with hpod | hmem
      · exact hx.1 hpod
      · exact hx.2 hmem
    simp only [check_workloads, if_neg h0, if_neg hw]
    by_cases hc : cn ∉ pods.flatMap (fun p => p.2)
    · rw [if_pos hc]
      exact iff_of_true rfl hc
    · rw [if_neg hc]
      exact iff_of_false (by simp) hc
  · intro hne hwl hc
    have h0 : ¬pods.length = 0 := fun h => hne (hlen0.mp h)
    have hw : ¬(wt ≠ "pod" ∧ wn ∉ pods.map (fun p => cleanedName p.1)) := by
      intro hx
      rcases hwl with hpod | hmem
      · exact hx.1 hpod
      · exact hx.2 hmem
    simp only [check_workloads, if_neg h0, if_neg hw, if_neg (not_not_intro hc)]

/-- C6 witness: the empty pod set fails with the no-pods error. -/
theorem c6_check_workloads_spec_witness :
    check_workloads ([] : List (String × List String)) "deployment" "api" "api"
      = .error .noPods :=
  (c6_check_workloads_spec [] "deployment" "api" "api").1 rfl

/-! ## C2: intent naming -/

/-- C2: when validation succeeds, the use-index flag is true iff more
than one pod was resolved, and the built intents' names are the base
name suffixed with `-<index>` for the indices `0, ..., n-1` in the
resolver's iteration order when the flag holds, and the bare base name
otherwise. -/
theorem c2_intent_names (pods : List (String × List String)) (wt wn cn : String) (u : Bool)
    (base ip nsp : String) (pm sdd : List String) (hp : Bool)
    (h : check_workloads pods wt wn cn = .ok u) :
    u = decide (1 < pods.length) ∧
    (buildIReqs base ip nsp cn pm sdd hp pods u).map (fun b => b.name) =
      (List.range pods.length).map
        (fun i => if u then base ++ "-" ++ toString i else base) := by
  constructor
  · simp only [check_workloads] at h
    split_ifs at h with h0 hw hc
    exact (Except.ok.inj h).symm
  · rw [buildIReqs, List.map_map, ← List.enum_map_fst pods, List.map_map]
    rfl

/-- C2 witness at two resolved pods: both suffixed names appear, with
use-index true. -/
theorem c2_intent_names_witness :
    check_workloads [("api-abc-1", ["api"]), ("api-abc-2", ["api"])] "deployment" "api" "api"
        = .ok true ∧
    true = decide (1 < ([("api-abc-1", ["api"]), ("api-abc-2", ["api"])] :
        List (String × List String)).length) ∧
    (buildIReqs "web-to-default.deployment.api" "10.0.0.5" "default" "api" ["8080:80"]
        [serviceAccountSecretPath] true
        [("api-abc-1", ["api"]), ("api-abc-2", ["api"])] true).map (fun b => b.name) =
      ["web-to-default.deployment.api-0", "web-to-default.deployment.api-1"] := by
  refine ⟨rfl, ?_⟩
  have h := c2_intent_names [("api-abc-1", ["api"]), ("api-abc-2", ["api"])]
    "deployment" "api" "api" true
    "web-to-default.deployment.api" "10.0.0.5" "default" ["8080:80"]
    [serviceAccountSecretPath] true rfl
  exact ⟨h.1, by rw [h.2]; rfl⟩

/-! ## C1: sync-down directories -/

theorem effectiveSyncDownDirs_eq (d : Option (List String)) :
    effectiveSyncDownDirs d = serviceAccountSecretPath :: d.getD [] := by
  cases d with
  | none => rfl
  | some dirs =>
    cases dirs with
    | nil => rfl
    | cons a l => rfl

theorem sync_down_of_mem_buildIReqs {base ip nsp cn : String} {pm sdd : List String}
    {hp : Bool} {pods : List (String × List String)} {u : Bool} {body : IReqBody}
    (h : body ∈ buildIReqs base ip nsp cn pm sdd hp pods u) :
    body.sync_down_directories = sdd := by
  simp only [buildIReqs, List.mem_map] at h
  obtain ⟨ip2, _, rfl⟩ := h
  rfl

/-- C1: every intent body `bridge` submits to the store carries the
service-account secret path followed by exactly the requested extra
sync-down directories in order (just the secret path when they are
absent or empty) — the same list for every pod of the request. -/
theorem c1_sync_down_directories (w : World) (req : BridgeRequest) (fuel : Nat) (body : IReqBody)
    (h : Effect.createIntent body ∈ (bridge w req fuel).2) :
    body.sync_down_directories = serviceAccountSecretPath :: req.sync_down_dirs.getD [] := by
  rw [← effectiveSyncDownDirs_eq]
  cases hw : w.containerNetworks with
  | none => simp [bridge, hw] at h
  | some networks =>
    cases hfind : networks.find? (fun p => p.1 == w.networkName) with
    | none => simp [bridge, hw, hfind] at h
    | some netEntry =>
      rcases hsplit : pySplit2 req.target with _ | ⟨wt, _ | ⟨wn, _ | ⟨cn, rest⟩⟩⟩
      · simp [bridge, hw, hfind, hsplit] at h
      · simp [bridge, hw, hfind, hsplit] at h
      · simp [bridge, hw, hfind, hsplit] at h
      · cases rest with
        | cons r rs => simp [bridge, hw, hfind, hsplit] at h
        | nil =>
          cases hcw : check_workloads w.pods wt wn cn with
          | error e => simp [bridge, hw, hfind, hsplit, hcw] at h
          | ok u =>
            simp only [bridge, hw, hfind, hsplit, hcw, List.mem_cons,
              List.mem_flatMap, List.mem_map] at h
            rcases h with h | ⟨b, hb, h⟩
            · exact absurd h (by simp)
            · rcases h with h | ⟨dir, _, hdir⟩
              · obtain rfl : body = b := by
                  injection h
                exact sync_down_of_mem_buildIReqs hb
              · exact absurd hdir (by simp)

/-! ## Helper lemmas: the per-tick bridge-set update -/

theorem lookupBridge_setTrue_of_ne {bs : List (String × Bool)} {u v : String} (hne : v ≠ u) :
    lookupBridge (setTrue bs v) u = lookupBridge bs u := by
  induction bs with
  | nil => rfl
  | cons p rest ih =>
    obtain ⟨a, b⟩ := p
    by_cases hau : a = u
    · subst hau
      have hav : ¬a = v := fun hav => hne (hav ▸ rfl)
      simp [setTrue, lookupBridge, List.find?_cons, if_neg hav]
    · have : ((fun p => p.1 == u) (if a = v then (a, true) else (a, b))) = false := by
        split <;> simp [hau]
      simp only [setTrue, List.map_cons] at *
      rw [lookupBridge, List.find?_cons_of_neg _ (by simp [this]), lookupBridge,
        List.find?_cons_of_neg _ (by simp [hau])]
      exact ih

theorem lookupBridge_setTrue_true {bs : List (String × Bool)} {u v : String}
    (h : lookupBridge bs u = some true) : lookupBridge (setTrue bs v) u = some true := by
  induction bs with
  | nil => simp [lookupBridge] at h
  | cons p rest ih =>
    obtain ⟨a, b⟩ := p
    by_cases hau : a = u
    · subst hau
      rw [lookupBridge, List.find?_cons_of_pos _ (by simp)] at h
      simp only [Option.map_some', Option.some.injEq] at h
      subst h
      by_cases hav : a = v
      · simp [setTrue, lookupBridge, List.find?_cons, if_pos hav]
      · simp [setTrue, lookupBridge, List.find?_cons, if_neg hav]
    · rw [lookupBridge, List.find?_cons_of_neg _ (by simp [hau])] at h
      have hf : ((fun p => p.1 == u) (if a = v then (a, true) else (a, b))) = false := by
        split <;> simp [hau]
      simp only [setTrue, List.map_cons]
      rw [lookupBridge, List.find?_cons_of_neg _ (by simp [hf])]
      exact ih h

theorem fetchStep_lookup_true {total : Nat} {acc : List (String × Bool) × List Emission}
    {f : Fetched} {u : String} (h : lookupBridge acc.1 u = some true) :
    lookupBridge (fetchStep total acc f).1 u = some true := by
  rw [fetchStep]
  split
  · exact lookupBridge_setTrue_true h
  · exact h

theorem foldl_fetchStep_lookup_true {total : Nat} {u : String} :
    ∀ (fetched : List Fetched) (acc : List (String × Bool) × List Emission),
      lookupBridge acc.1 u = some true →
      lookupBridge (fetched.foldl (fetchStep total) acc).1 u = some true := by
  intro fetched
  induction fetched with
  | nil => intro acc h; exact h
  | cons f rest ih =>
    intro acc h
    exact ih (fetchStep total acc f) (fetchStep_lookup_true h)

/-- Once a tracked intent is marked converged, one more tick — whatever
it fetches — leaves it converged. -/
theorem applyFetch_preserves_true {bs : List (String × Bool)} {u : String}
    (fetched : List Fetched) (total : Nat) (h : lookupBridge bs u = some true) :
    lookupBridge (applyFetch bs fetched total).1 u = some true :=
  foldl_fetchStep_lookup_true fetched (bs, []) h

theorem fetchStep_lookup_false {total : Nat} {acc : List (String × Bool) × List Emission}
    {f : Fetched} {u : String} (h : lookupBridge acc.1 u = some false)
    (hf : f.uid = u → f.established = false) :
    lookupBridge (fetchStep total acc f).1 u = some false := by
  rw [fetchStep]
  split
  · rename_i htr
    have hest : f.established = true := by
      simp only [trackedEstablished, Bool.and_eq_true] at htr
      exact htr.2
    have hne : f.uid ≠ u := fun he => by
      rw [hf he] at hest
      exact Bool.false_ne_true hest
    rw [lookupBridge_setTrue_of_ne hne]
    exact h
  · exact h

theorem foldl_fetchStep_lookup_false {total : Nat} {u : String} :
    ∀ (fetched : List Fetched) (acc : List (String × Bool) × List Emission),
      lookupBridge acc.1 u = some false →
      (∀ f ∈ fetched, f.uid = u → f.established = false) →
      lookupBridge (fetched.foldl (fetchStep total) acc).1 u = some false := by
  intro fetched
  induction fetched with
  | nil => intro acc h _; exact h
  | cons f rest ih =>
    intro acc h hnever
    exact ih (fetchStep total acc f)
      (fetchStep_lookup_false h (hnever f (List.mem_cons_self f rest)))
      (fun g hg => hnever g (List.mem_cons_of_mem f hg))

/-- A tick never establishes an intent whose fetched entries all report
not-established. -/
theorem applyFetch_preserves_false {bs : List (String × Bool)} {u : String}
    {fetched : List Fetched} (total : Nat) (h : lookupBridge bs u = some false)
    (hnever : ∀ f ∈ fetched, f.uid = u → f.established = false) :
    lookupBridge (applyFetch bs fetched total).1 u = some false :=
  foldl_fetchStep_lookup_false fetched (bs, []) h hnever

/-- A bridge set holding a non-converged entry fails the
`all(bridges.values())` exit test. -/
theorem all_eq_false_of_lookup_false {bs : List (String × Bool)} {u : String}
    (h : lookupBridge bs u = some false) : bs.all (fun p => p.2) = false := by
  rw [lookupBridge] at h
  cases hf : bs.find? (fun p => p.1 == u) with
  | none => rw [hf] at h; simp at h
  | some p =>
    rw [hf] at h
    simp only [Option.map_some', Option.some.injEq] at h
    have hmem : p ∈ bs := List.mem_of_find?_eq_some hf
    cases hall : bs.all (fun q => q.2) with
    | false => rfl
    | true =>
      have := List.all_eq_true.mp hall p hmem
      rw [h] at this
      exact absurd this Bool.false_ne_true

/-! ## C4: monotonicity of converged flags -/

/-- C4: once some poll tick has marked a tracked intent converged, every
later tick leaves it converged, whatever the intervening fetches return
— including fetches that omit the intent or report it not
established. -/
theorem c4_converged_monotone (fetches : Nat → List Fetched) (total : Nat)
    (bs : List (String × Bool)) (u : String) (k k' : Nat) (hkk : k ≤ k')
    (h : lookupBridge (bridgesAfter fetches total bs k) u = some true) :
    lookupBridge (bridgesAfter fetches total bs k') u = some true := by
  induction k', hkk using Nat.le_induction with
  | base => exact h
  | succ n hn ih =>
    rw [bridgesAfter, bridgesAfterFrom]
    exact applyFetch_preserves_true _ _ ih

/-- C4 witness: a converged intent stays converged over later ticks
whose fetches omit it entirely. -/
theorem c4_converged_monotone_witness :
    lookupBridge (bridgesAfter (fun _ => []) 1 [("u", true)] 0) "u" = some true ∧
    lookupBridge (bridgesAfter (fun _ => []) 1 [("u", true)] 3) "u" = some true :=
  ⟨rfl, c4_converged_monotone (fun _ => []) 1 [("u", true)] "u" 0 3 (by omega) rfl⟩

/-! ## C3: timeout behaviour -/

theorem runLoop_times_out (fetches : Nat → List Fetched) (total : Nat) (u : String)
    (hnever : ∀ t, ∀ f ∈ fetches t, f.uid = u → f.established = false)
    (T : Nat) (hT : T ≠ 0) :
    ∀ (m fuel tick : Nat) (bs : List (String × Bool)) (waiting : Int)
      (ems : List Emission), ((m : Int) + 1 = waiting) → m + 1 ≤ fuel →
      lookupBridge bs u = some false →
      (runLoop fetches T total fuel tick bs waiting ems).isTimedOut = true ∧
      (runLoop fetches T total fuel tick bs waiting ems).ticks = tick + (m + 1) := by
  intro m
  induction m with
  | zero =>
    intro fuel tick bs waiting ems hw hfuel hlookup
    obtain ⟨f, rfl⟩ : ∃ f, fuel = f + 1 := ⟨fuel - 1, by omega⟩
    have hbs' := applyFetch_preserves_false total hlookup (hnever tick)
    have hall := all_eq_false_of_lookup_false hbs'
    have hwaiting : waiting - 1 ≤ 0 := by omega
    simp only [runLoop, hall, Bool.false_eq_true, if_false]
    rw [if_pos (⟨hT, hwaiting⟩ : T ≠ 0 ∧ waiting - 1 ≤ 0)]
    exact ⟨rfl, rfl⟩
  | succ m ih =>
    intro fuel tick bs waiting ems hw hfuel hlookup
    obtain ⟨f, rfl⟩ : ∃ f, fuel = f + 1 := ⟨fuel - 1, by omega⟩
    have hbs' := applyFetch_preserves_false total hlookup (hnever tick)
    have hall := all_eq_false_of_lookup_false hbs'
    have hcond : ¬(T ≠ 0 ∧ waiting - 1 ≤ 0) := by
      intro hx
      omega
    simp only [runLoop, hall, Bool.false_eq_true, if_false, if_neg hcond]
    obtain ⟨h1, h2⟩ := ih f (tick + 1) (applyFetch bs (fetches tick) total).1
      (waiting - 1) (ems ++ (applyFetch bs (fetches tick) total).2)
      (by omega) (by omega) hbs'
    exact ⟨h1, by rw [h2]; omega⟩

theorem runLoop_zero_timeout_never_times_out (fetches : Nat → List Fetched) (total : Nat) :
    ∀ (fuel tick : Nat) (bs : List (String × Bool)) (w : Int) (ems : List Emission),
      (runLoop fetches 0 total fuel tick bs w ems).isTimedOut = false := by
  intro fuel
  induction fuel with
  | zero => intro tick bs w ems; rfl
  | succ f ih =>
    intro tick bs w ems
    simp only [runLoop]
    split
    · rfl
    · rw [if_neg (fun hx : (0 : Nat) ≠ 0 ∧ _ => hx.1 rfl)]
      exact ih (tick + 1) _ (w - 1) _

/-- C3: with a positive timeout `T` and a collaborator that never
reports a given tracked intent established, the convergence loop raises
the timeout error after exactly `T` ticks (so after at least one full
poll cycle); with timeout zero it never raises the timeout error, no
matter how many ticks elapse. -/
theorem c3_timeout_exact (fetches : Nat → List Fetched) (total : Nat)
    (bs : List (String × Bool)) (u : String) (T : Nat)
    (hu : lookupBridge bs u = some false)
    (hnever : ∀ t, ∀ f ∈ fetches t, f.uid = u → f.established = false) :
    (T ≠ 0 → ∀ fuel, T ≤ fuel →
      (runLoop fetches T total fuel 0 bs (T : Int) []).isTimedOut = true ∧
      (runLoop fetches T total fuel 0 bs (T : Int) []).ticks = T) ∧
    (∀ (fuel tick : Nat) (bs2 : List (String × Bool)) (w : Int) (ems : List Emission),
      (runLoop fetches 0 total fuel tick bs2 w ems).isTimedOut = false) := by
  constructor
  · intro hT fuel hfuel
    obtain ⟨m, rfl⟩ : ∃ m, T = m + 1 := ⟨T - 1, by omega⟩
    obtain ⟨h1, h2⟩ := runLoop_times_out fetches total u hnever (m + 1) hT m fuel 0 bs
      ((m + 1 : Nat) : Int) [] (by push_cast; omega) hfuel hu
    exact ⟨h1, by rw [h2]; omega⟩
  · exact runLoop_zero_timeout_never_times_out fetches total

/-- C3 witness: timeout 2 with an always-empty fetch raises after
exactly two ticks. -/
theorem c3_timeout_exact_witness :
    (runLoop (fun _ => []) 2 1 2 0 [("u", false)] ((2 : Nat) : Int) []).isTimedOut = true ∧
    (runLoop (fun _ => []) 2 1 2 0 [("u", false)] ((2 : Nat) : Int) []).ticks = 2 :=
  (c3_timeout_exact (fun _ => []) 1 [("u", false)] "u" 2 rfl
      (fun _ f hf => absurd hf (List.not_mem_nil f))).1 (by omega) 2 (by omega)

/-- C7 witness: an absent local container terminates the run with no
effects. -/
theorem c7_local_container_guard_witness :
    bridge wC7 reqC10 0 = (.returnedFalse, []) :=
  (c7_local_container_guard wC7 reqC10 0).1 rfl

/-- C10 witness: a container segment containing a slash survives
parsing, and a one-slash target aborts with the unpacking error and no
effects. -/
theorem c10_target_split_witness :
    pySplit2 ("a" ++ "/" ++ "b" ++ "/" ++ "c/d") = ["a", "b", "c/d"] ∧
    bridge wC10 reqC10 0 = (.raisedUnpack, []) :=
  ⟨(c10_target_split wC10 reqC10 0).1 "a" "b" "c/d" (by decide) (by decide),
   (c10_target_split wC10 reqC10 0).2 [("gefyra", "10.0.0.5")] ("gefyra", "10.0.0.5")
     rfl (by decide) (by decide)⟩

/-- C1 witness: the concrete single-pod run creates an intent whose
sync-down list is the secret path followed by the requested
directory. -/
theorem c1_sync_down_directories_witness :
    Effect.createIntent bodyC1 ∈ (bridge wC1 reqC1 1).2 ∧
    bodyC1.sync_down_directories = serviceAccountSecretPath :: (reqC1.sync_down_dirs.getD []) :=
  ⟨by decide, c1_sync_down_directories wC1 reqC1 1 bodyC1 (by decide)⟩

/-! ## C5: progress emissions and convergence -/

theorem setTrue_keys (bs : List (String × Bool)) (v : String) :
    (setTrue bs v).map Prod.fst = bs.map Prod.fst := by
  induction bs with
  | nil => rfl
  | cons p rest ih =>
    simp only [setTrue, List.map_cons] at ih ⊢
    rw [ih]
    congr 1
    obtain ⟨a, b⟩ := p
    split <;> rfl

theorem any_fst_congr {bs1 bs2 : List (String × Bool)}
    (h : bs1.map Prod.fst = bs2.map Prod.fst) (u : String) :
    bs1.any (fun p => p.1 == u) = bs2.any (fun p => p.1 == u) := by
  induction bs1 generalizing bs2 with
  | nil =>
    cases bs2 with
    | nil => rfl
    | cons q qs => simp at h
  | cons p ps ih =>
    cases bs2 with
    | nil => simp at h
    | cons q qs =>
      simp only [List.map_cons, List.cons.injEq] at h
      simp only [List.any_cons, h.1, ih h.2]

theorem trackedEstablished_congr {bs1 bs2 : List (String × Bool)}
    (h : bs1.map Prod.fst = bs2.map Prod.fst) (f : Fetched) :
    trackedEstablished bs1 f = trackedEstablished bs2 f := by
  rw [trackedEstablished, trackedEstablished, any_fst_congr h f.uid]

theorem fetchStep_keys (total : Nat) (acc : List (String × Bool) × List Emission) (f : Fetched) :
    ((fetchStep total acc f).1).map Prod.fst = acc.1.map Prod.fst := by
  rw [fetchStep]
  split
  · exact setTrue_keys acc.1 f.uid
  · rfl

theorem foldl_fetchStep_emissions (total : Nat) (bs : List (String × Bool)) :
    ∀ (fetched : List Fetched) (acc : List (String × Bool) × List Emission),
      acc.1.map Prod.fst = bs.map Prod.fst →
      ((fetched.foldl (fetchStep total) acc).2).map (fun e => (e.name, e.total))
        = acc.2.map (fun e => (e.name, e.total))
          ++ (fetched.filter (trackedEstablished bs)).map (fun f => (f.name, total)) := by
  intro fetched
  induction fetched with
  | nil => intro acc h; simp
  | cons f rest ih =>
    intro acc h
    have hkeys : ((fetchStep total acc f).1).map Prod.fst = bs.map Prod.fst := by
      rw [fetchStep_keys]
      exact h
    have htr : trackedEstablished acc.1 f = trackedEstablished bs f :=
      trackedEstablished_congr h f
    rw [List.foldl_cons, ih (fetchStep total acc f) hkeys]
    cases hcase : trackedEstablished bs f with
    | true =>
      have hstep : fetchStep total acc f
          = (setTrue acc.1 f.uid,
             acc.2 ++ [⟨f.name, countTrue (setTrue acc.1 f.uid), total⟩]) := by
        rw [fetchStep, if_pos (htr.trans hcase)]
      rw [hstep, List.filter_cons_of_pos (by rw [hcase])]
      simp [List.append_assoc]
    | false =>
      have hstep : fetchStep total acc f = acc := by
        rw [fetchStep, if_neg]
        rw [htr, hcase]
        exact Bool.false_ne_true
      rw [hstep, List.filter_cons_of_neg (by rw [hcase]; exact Bool.false_ne_true)]

theorem applyFetch_emissions (bs : List (String × Bool)) (fetched : List Fetched) (total : Nat) :
    ((applyFetch bs fetched total).2).map (fun e => (e.name, e.total))
      = (fetched.filter (trackedEstablished bs)).map (fun f => (f.name, total)) := by
  have h := foldl_fetchStep_emissions total bs fetched (bs, []) rfl
  rw [applyFetch, h]
  rfl

theorem bridgesAfterFrom_shift (fetches : Nat → List Fetched) (total : Nat)
    (bs : List (String × Bool)) (tick : Nat) :
    ∀ j, bridgesAfterFrom fetches total ((applyFetch bs (fetches tick) total).1) (tick + 1) j
      = bridgesAfterFrom fetches total bs tick (j + 1) := by
  intro j
  induction j with
  | zero => simp [bridgesAfterFrom]
  | succ j ih =>
    show (applyFetch (bridgesAfterFrom fetches total ((applyFetch bs (fetches tick) total).1)
        (tick + 1) j) (fetches (tick + 1 + j)) total).1
      = (applyFetch (bridgesAfterFrom fetches total bs tick (j + 1))
        (fetches (tick + (j + 1))) total).1
    rw [ih, show tick + 1 + j = tick + (j + 1) from by omega]

theorem runLoop_first_converged (fetches : Nat → List Fetched) (timeout total : Nat) :
    ∀ (k tick : Nat) (bs : List (String × Bool)) (w : Int) (ems : List Emission) (fuel : Nat),
      (∀ j, j < k → (bridgesAfterFrom fetches total bs tick (j + 1)).all (fun p => p.2) = false) →
      (bridgesAfterFrom fetches total bs tick (k + 1)).all (fun p => p.2) = true →
      (timeout = 0 ∨ (k : Int) < w) →
      k < fuel →
      (runLoop fetches timeout total fuel tick bs w ems).isConverged = true ∧
      (runLoop fetches timeout total fuel tick bs w ems).ticks = tick + k + 1 := by
  intro k
  induction k with
  | zero =>
    intro tick bs w ems fuel hk hall hb hfuel
    obtain ⟨f, rfl⟩ : ∃ f, fuel = f + 1 := ⟨fuel - 1, by omega⟩
    have h1 : (applyFetch bs (fetches tick) total).1.all (fun p => p.2) = true := by
      have h2 := hall
      simp only [bridgesAfterFrom, Nat.add_zero] at h2
      exact h2
    simp only [runLoop, h1, if_true]
    exact ⟨rfl, rfl⟩
  | succ k ih =>
    intro tick bs w ems fuel hk hall hb hfuel
    obtain ⟨f, rfl⟩ : ∃ f, fuel = f + 1 := ⟨fuel - 1, by omega⟩
    have h0 : (applyFetch bs (fetches tick) total).1.all (fun p => p.2) = false := by
      have h2 := hk 0 (by omega)
      simp only [bridgesAfterFrom, Nat.add_zero] at h2
      exact h2
    have hcond : ¬(timeout ≠ 0 ∧ w - 1 ≤ 0) := by
      rcases hb with h | h
      · exact fun hx => hx.1 h
      · intro hx
        omega
    simp only [runLoop, h0, Bool.false_eq_true, if_false, if_neg hcond]
    obtain ⟨h1, h2⟩ := ih (tick + 1) (applyFetch bs (fetches tick) total).1 (w - 1)
      (ems ++ (applyFetch bs (fetches tick) total).2) f
      (fun j hj => by
        rw [bridgesAfterFrom_shift]
        exact hk (j + 1) (by omega))
      (by rw [bridgesAfterFrom_shift]; exact hall)
      (by rcases hb with h | h
          · exact Or.inl h
          · right; omega)
      (by omega)
    exact ⟨h1, by rw [h2]; omega⟩

theorem runLoop_converged_all (fetches : Nat → List Fetched) (timeout total : Nat) :
    ∀ (fuel tick : Nat) (bs : List (String × Bool)) (w : Int) (ems : List Emission)
      (t : Nat) (e : List Emission) (lf : List Fetched) (fin : List (String × Bool)),
      runLoop fetches timeout total fuel tick bs w ems = .converged t e lf fin →
      countTrue fin = fin.length := by
  intro fuel
  induction fuel with
  | zero =>
    intro tick bs w ems t e lf fin h
    exact absurd h (by simp [runLoop])
  | succ f ih =>
    intro tick bs w ems t e lf fin h
    simp only [runLoop] at h
    by_cases hall : (applyFetch bs (fetches tick) total).1.all (fun p => p.2) = true
    · rw [if_pos hall] at h
      cases h
      rw [countTrue, List.filter_eq_self.mpr (fun a ha => List.all_eq_true.mp hall a ha)]
    · rw [if_neg hall] at h
      by_cases hc : timeout ≠ 0 ∧ w - 1 ≤ 0
      · rw [if_pos hc] at h
        exact absurd h (by simp)
      · rw [if_neg hc] at h
        exact ih _ _ _ _ _ _ _ _ h

/-- C5 counterexample: two tracked intents; the first is established by
every fetch, the second only from the second tick on.  The first intent
transitions to converged exactly once (at the first tick) but the loop
emits a progress line for it again at the second tick — two emissions
for one transition — so a progress signal is not emitted only when an
intent transitions, nor once per intent. -/
theorem c5_progress_counterexample :
    runLoop fetchesC5 0 2 3 0 [("u1", false), ("u2", false)] 0 []
      = .converged 2 [⟨"b1", 1, 2⟩, ⟨"b1", 1, 2⟩, ⟨"b2", 2, 2⟩]
          [⟨"u1", "b1", true, "p1", "nsa"⟩, ⟨"u2", "b2", true, "p2", "nsa"⟩]
          [("u1", true), ("u2", true)] ∧
    (([(⟨"b1", 1, 2⟩ : Emission), ⟨"b1", 1, 2⟩, ⟨"b2", 2, 2⟩].filter
        (fun e => e.name == "b1")).length = 2) := by
  constructor
  · decide
  · decide

/-- C5 amended: on every tick the loop emits one progress line — naming
the intent and carrying the shared total — for every fetched entry that
is tracked and observed established, including entries already
converged on an earlier tick (so an intent can emit more than once);
the loop terminates successfully at the first tick whose update leaves
every tracked intent converged, provided the timeout budget has not run
out earlier; and whenever it terminates converged, every entry of the
final bridge set is converged (the converged count equals the
total). -/
theorem c5_progress_amended :
    (∀ (bs : List (String × Bool)) (fetched : List Fetched) (total : Nat),
      ((applyFetch bs fetched total).2).map (fun e => (e.name, e.total))
        = (fetched.filter (trackedEstablished bs)).map (fun f => (f.name, total))) ∧
    (∀ (fetches : Nat → List Fetched) (timeout total : Nat) (bs : List (String × Bool))
      (w : Int) (k fuel : Nat),
      (∀ j, j < k → (bridgesAfter fetches total bs (j + 1)).all (fun p => p.2) = false) →
      (bridgesAfter fetches total bs (k + 1)).all (fun p => p.2) = true →
      (timeout = 0 ∨ (k : Int) < w) →
      k < fuel →
      (runLoop fetches timeout total fuel 0 bs w []).isConverged = true ∧
      (runLoop fetches timeout total fuel 0 bs w []).ticks = k + 1) ∧
    (∀ (fetches : Nat → List Fetched) (timeout total fuel tick : Nat)
      (bs : List (String × Bool)) (w : Int) (ems : List Emission)
      (t : Nat) (e : List Emission) (lf : List Fetched) (fin : List (String × Bool)),
      runLoop fetches timeout total fuel tick bs w ems = .converged t e lf fin →
      countTrue fin = fin.length) := by
  refine ⟨applyFetch_emissions, ?_, fun fetches timeout total => runLoop_converged_all fetches timeout total⟩
  intro fetches timeout total bs w k fuel hk hall hb hfuel
  have h := runLoop_first_converged fetches timeout total k 0 bs w [] fuel hk hall hb hfuel
  exact ⟨h.1, by rw [h.2]; omega⟩

/-- C5 amended witness: a single tracked established intent emits once
and the loop converges on the first tick. -/
theorem c5_progress_amended_witness :
    ((applyFetch [("u", false)] [⟨"u", "b", true, "p", "nsa"⟩] 1).2).map
        (fun e => (e.name, e.total)) = [("b", 1)] ∧
    (runLoop (fun _ => [⟨"u", "b", true, "p", "nsa"⟩]) 0 1 1 0 [("u", false)] 0 []).isConverged
      = true := by
  constructor
  · rw [c5_progress_amended.1]
    decide
  · exact (c5_progress_amended.2.1 (fun _ => [⟨"u", "b", true, "p", "nsa"⟩]) 0 1
      [("u", false)] 0 0 1
      (fun j hj => absurd hj (Nat.not_lt_zero j)) (by decide) (Or.inl rfl) (by decide)).1

/-! ## C9: summary report -/

theorem length_buildIReqs (base ip nsp cn : String) (pm sdd : List String) (hp : Bool)
    (pods : List (String × List String)) (u : Bool) :
    (buildIReqs base ip nsp cn pm sdd hp pods u).length = pods.length := by
  rw [buildIReqs, List.length_map, List.enum_length]

/-- Cross-referencing the serialized port strings recovers the original
port mapping, provided no port text contains a colon. -/
theorem summaryLines_serialized (cn : String) (reqPorts : List (String × String))
    (lf : List Fetched)
    (h : ∀ kv ∈ reqPorts, (':' ∉ kv.1.data) ∧ (':' ∉ kv.2.data)) :
    summaryLines cn (serializePorts reqPorts) lf
      = lf.flatMap (fun ki => reqPorts.map (fun kv =>
          { pod := ki.targetPod, ns := ki.targetNamespace, podPort := kv.2,
            container := cn, containerPort := kv.1 })) := by
  have hmap : ∀ ki : Fetched,
      (serializePorts reqPorts).map (fun port =>
        ({ pod := ki.targetPod, ns := ki.targetNamespace,
           podPort := (pySplitAll ':' port).getD 1 "", container := cn,
           containerPort := (pySplitAll ':' port).getD 0 "" } : SummaryLine))
        = reqPorts.map (fun kv =>
          ({ pod := ki.targetPod, ns := ki.targetNamespace, podPort := kv.2,
             container := cn, containerPort := kv.1 } : SummaryLine)) := by
    intro ki
    rw [serializePorts, List.map_map]
    apply List.map_congr_left
    intro kv hkv
    have hsplit := pySplitAll_colon kv.1 kv.2 (h kv hkv).1 (h kv hkv).2
    simp only [Function.comp_apply, hsplit]
    rfl
  induction lf with
  | nil => rfl
  | cons ki rest ih =>
    simp only [summaryLines, List.flatMap_cons] at ih ⊢
    rw [ih, hmap ki]

/-- C9 counterexample: a run over one resolved pod and one port mapping
converges immediately, yet its summary holds two lines: the fetched
list also contained an intercept request this run did not create (uid
`foreign`, not even established), and the report iterates over the full
fetched list — refuting "exactly one line per tracked intent of this
request" and "no lines for intents not created by this request". -/
theorem c9_summary_counterexample :
    (bridge wC9 reqC9 1).1 = .returnedTrue
      [⟨"api-abc-def", "default", "80", "app", "8080"⟩,
       ⟨"otherpod", "otherns", "80", "app", "8080"⟩] ∧
    wC9.pods.length = 1 ∧ reqC9.ports.length = 1 := by
  refine ⟨?_, rfl, rfl⟩
  decide

/-- C9 amended: after convergence the summary holds exactly one line
per entry of the last fetched intercept-request list — which may
include intents not created by this request — and per requested port
mapping, each stating that entry's target pod and namespace, the
pod-side port, the requested target container (printed with the label
"local container"), and the container-side port, recovered from the
originally requested port mappings. -/
theorem c9_summary_amended (w : World) (req : BridgeRequest) (fuel : Nat)
    (s : List SummaryLine)
    (hports : ∀ kv ∈ req.ports, (':' ∉ kv.1.data) ∧ (':' ∉ kv.2.data))
    (h : (bridge w req fuel).1 = .returnedTrue s) :
    ∃ wt wn cn t ems lf fin,
      pySplit2 req.target = [wt, wn, cn] ∧
      runLoop w.fetches req.timeout w.pods.length fuel 0
        ((List.range w.pods.length).map (fun i => (w.uids i, false)))
        (Int.ofNat req.timeout) [] = .converged t ems lf fin ∧
      s = lf.flatMap (fun ki => req.ports.map (fun kv =>
        { pod := ki.targetPod, ns := ki.targetNamespace, podPort := kv.2,
          container := cn, containerPort := kv.1 })) := by
  cases hw : w.containerNetworks with
  | none => simp [bridge, hw] at h
  | some networks =>
    cases hfind : networks.find? (fun p => p.1 == w.networkName) with
    | none => simp [bridge, hw, hfind] at h
    | some netEntry =>
      rcases hsplit : pySplit2 req.target with _ | ⟨wt, _ | ⟨wn, _ | ⟨cn, rest⟩⟩⟩
      · simp [bridge, hw, hfind, hsplit] at h
      · simp [bridge, hw, hfind, hsplit] at h
      · simp [bridge, hw, hfind, hsplit] at h
      · cases rest with
        | cons r rs => simp [bridge, hw, hfind, hsplit] at h
        | nil =>
          cases hcw : check_workloads w.pods wt wn cn with
          | error e => simp [bridge, hw, hfind, hsplit, hcw] at h
          | ok u =>
            simp only [bridge, hw, hfind, hsplit, hcw] at h
            rw [length_buildIReqs] at h
            cases hrl : runLoop w.fetches req.timeout w.pods.length fuel 0
                ((List.range w.pods.length).map (fun i => (w.uids i, false)))
                (Int.ofNat req.timeout) [] with
            | converged t ems lf fin =>
              rw [hrl] at h
              simp only [BridgeOutcome.returnedTrue.injEq] at h
              exact ⟨wt, wn, cn, t, ems, lf, fin, rfl, rfl,
                by rw [← h, summaryLines_serialized cn req.ports lf hports]⟩
            | timedOut t ems =>
              rw [hrl] at h
              simp at h
            | running bs2 w2 ems =>
              rw [hrl] at h
              simp at h

/-- C9 amended witness: the concrete converged run's summary is the
cross-product of the two fetched entries with the single requested port
mapping. -/
theorem c9_summary_amended_witness :
    ∃ wt wn cn t ems lf fin,
      pySplit2 reqC9.target = [wt, wn, cn] ∧
      runLoop wC9.fetches reqC9.timeout wC9.pods.length 1 0
        ((List.range wC9.pods.length).map (fun i => (wC9.uids i, false)))
        (Int.ofNat reqC9.timeout) [] = .converged t ems lf fin ∧
      ([⟨"api-abc-def", "default", "80", "app", "8080"⟩,
        ⟨"otherpod", "otherns", "80", "app", "8080"⟩] : List SummaryLine)
        = lf.flatMap (fun ki => reqC9.ports.map (fun kv =>
            { pod := ki.targetPod, ns := ki.targetNamespace, podPort := kv.2,
              container := cn, containerPort := kv.1 })) :=
  c9_summary_amended wC9 reqC9 1
    [⟨"api-abc-def", "default", "80", "app", "8080"⟩,
     ⟨"otherpod", "otherns", "80", "app", "8080"⟩]
    (by decide) (by decide)

end Gefyra
